import Mathlib

/-!
Verification of the spelfig fit-setup pipeline (fitting_scripts/sps_fitsetup.py).

All numeric quantities are modelled as exact rationals.  Quantities that the
source stores as IEEE infinities (np.inf entries of bound vectors) are modelled
by the extended-rational type XQ below.  Two library calls of the source have
irrational values and are abstracted as explicit function parameters that every
theorem involving them quantifies over universally:
* numpy.std (the square root of the mean squared deviation) inside
  filter_and_prepare_linelist, passed as a parameter named stdFn;
* the FWHM-to-sigma conversion fwhm / (2 * sqrt (2 * ln 2)) on line 137 of the
  source, passed as a parameter named s2f.
The claims settled here do not depend on the values these functions return.
Dataframes are modelled as a column-name list plus a list of typed rows;
the dictionaries produced by the detection and filtering stages are modelled
as structures with one field per dictionary key.
-/

namespace Spelfig

/-- Extended rationals: the value type of bound-vector entries, covering the
np.inf and -np.inf literals the source stores in bound vectors. -/
inductive XQ where
  | ninf : XQ
  | fin : ℚ → XQ
  | pinf : XQ
deriving DecidableEq

/-- Order test on extended rationals (ninf below everything, pinf above). -/
def XQ.leb : XQ → XQ → Bool
  | .ninf, _ => true
  | .fin _, .ninf => false
  | .fin a, .fin b => decide (a ≤ b)
  | .fin _, .pinf => true
  | .pinf, .pinf => true
  | .pinf, .fin _ => false
  | .pinf, .ninf => false

/-- Catalog component models.  The data model restricts a catalog entry's
component_model to Gaussian, Lorentzian or Voigt. -/
inductive CompModel where
  | Gaussian : CompModel
  | Lorentzian : CompModel
  | Voigt : CompModel
deriving DecidableEq

/-- One catalog entry: an optional rest wavelength plus a component model
(the 'wavelength' and 'components' keys of lines_dict values). -/
structure CatalogEntry where
  wavelength : Option ℚ
  components : CompModel
deriving DecidableEq

/-- The line catalog: a name-keyed association list (lines_dict). -/
abbrev Catalog := List (String × CatalogEntry)

/-- A line record as produced by analyze_emission_lines (entries of its
'results' list, source lines 99-105). -/
structure LineResult where
  name : String
  restframe_wavelength : ℚ
  observed_wavelength : ℚ
  fwhm : ℚ
  peak_flux : ℚ
deriving DecidableEq

/-- A line record as produced by filter_and_prepare_linelist
(the line_details dictionary, source lines 157-167). -/
structure FilteredLine where
  name : String
  wavelength : ℚ
  sigma : ℚ
  min_loc : ℚ
  max_loc : ℚ
  min_sd : ℚ
  max_sd : ℚ
  max_flux : ℚ
  snr : ℚ
deriving DecidableEq

/-- One row of the parameters dataframe. -/
structure ParameterRow where
  lineName : String
  model : String
  component : ℤ
  parameters : List ℚ
  minLimits : List XQ
  maxLimits : List XQ
deriving DecidableEq

/-- The parameters dataframe: its column-name list plus its rows. -/
structure Table where
  cols : List String
  rows : List ParameterRow
deriving DecidableEq

/-- Default row used for the (never taken in the source) out-of-range
list accesses of the embedding. -/
def blankRow : ParameterRow := ⟨"", "", 0, [], [], []⟩

/-! ## Peak detection (analyze_emission_lines, first loop, source lines 41-85)

The source calls scipy.signal.find_peaks(window_flux, prominence=0.5).
The embedding below reproduces scipy's behaviour exactly on rational flux:
a sample is a local maximum when it is the midpoint of a maximal plateau
strictly above both neighbours of the plateau (scipy _local_maxima_1d), and
a peak is kept when its prominence (peak height above the higher of the two
base minima, scipy _peak_prominences with full window) is at least the
threshold (scipy keeps prominence greater than or equal to the bound). -/

/-- Flux value at an index; out-of-range accesses (never taken by the source)
default to 0. -/
def valAt (f : List ℚ) (i : ℕ) : ℚ := f.getD i 0

/-- Index i is a local maximum of f in scipy's sense: the midpoint of a
maximal plateau [l, r] with strictly smaller values adjacent on both sides
(interior indices only). -/
def isPeak (f : List ℚ) (i : ℕ) : Bool :=
  let n := f.length
  (List.range n).any fun l => (List.range n).any fun r =>
    decide (1 ≤ l) && decide (l ≤ r) && decide (r + 2 ≤ n) &&
    decide (i = (l + r) / 2) &&
    decide (valAt f (l - 1) < valAt f l) && decide (valAt f (r + 1) < valAt f r) &&
    ((List.range n).all fun k =>
      !(decide (l ≤ k) && decide (k ≤ r)) || decide (valAt f k = valAt f l))

/-- First index strictly above f p while scanning left from p (plus one);
0 when no such index exists.  Left end of scipy's prominence base scan. -/
def leftStop (f : List ℚ) (p : ℕ) : ℕ :=
  match ((List.range p).filter fun j => decide (valAt f p < valAt f j)).getLast? with
  | some j => j + 1
  | none => 0

/-- Minimum of f over the left base segment of peak p. -/
def leftBaseMin (f : List ℚ) (p : ℕ) : ℚ :=
  ((List.range' (leftStop f p) (p + 1 - leftStop f p)).map (valAt f)).foldl min (valAt f p)

/-- First index strictly above f p while scanning right from p; the list
length when no such index exists. -/
def rightStop (f : List ℚ) (p : ℕ) : ℕ :=
  match ((List.range f.length).filter fun j =>
      decide (p < j) && decide (valAt f p < valAt f j)).head? with
  | some j => j
  | none => f.length

/-- Minimum of f over the right base segment of peak p. -/
def rightBaseMin (f : List ℚ) (p : ℕ) : ℚ :=
  ((List.range' p (rightStop f p - p)).map (valAt f)).foldl min (valAt f p)

/-- Prominence of peak p: its height above the higher of its two base minima. -/
def prominence (f : List ℚ) (p : ℕ) : ℚ :=
  valAt f p - max (leftBaseMin f p) (rightBaseMin f p)

/-- The indices scipy.signal.find_peaks returns for a prominence lower bound:
local maxima whose prominence is at least pmin (scipy's bound is inclusive). -/
def findPeaks (f : List ℚ) (pmin : ℚ) : List ℕ :=
  ((List.range f.length).filter (isPeak f)).filter fun p => decide (pmin ≤ prominence f p)

/-- Selection loop of source lines 62-74: keep the peak whose window
wavelength has strictly smaller absolute difference to the rest wavelength
than every peak seen before it. -/
def cpGo (ww : List ℚ) (rest : ℚ) : List ℕ → Option (ℕ × ℚ) → Option (ℕ × ℚ)
  | [], acc => acc
  | q :: qs, acc =>
    match acc with
    | none => cpGo ww rest qs (some (q, |ww.getD q 0 - rest|))
    | some (q0, d0) =>
      if |ww.getD q 0 - rest| < d0 then cpGo ww rest qs (some (q, |ww.getD q 0 - rest|))
      else cpGo ww rest qs (some (q0, d0))

/-- The peak closest in wavelength to the rest wavelength (closest_peak_idx
of the source; the first peak wins ties because the comparison is strict). -/
def closestPeak (ww : List ℚ) (rest : ℚ) (peaks : List ℕ) : Option ℕ :=
  (cpGo ww rest peaks none).map (·.1)

/-- Sample indices whose wavelength lies inside the detection window
rest plus or minus the window halfwidth (source line 46 mask). -/
def windowIdxs (waves : List ℚ) (rest window : ℚ) : List ℕ :=
  (List.range waves.length).filter fun i =>
    decide (rest - window ≤ waves.getD i 0) && decide (waves.getD i 0 ≤ rest + window)

/-- Wavelengths of the samples inside the detection window. -/
def windowWaves (waves : List ℚ) (rest window : ℚ) : List ℚ :=
  (windowIdxs waves rest window).map fun i => waves.getD i 0

/-- Flux values of the samples inside the detection window. -/
def windowFlux (waves flux : List ℚ) (rest window : ℚ) : List ℚ :=
  (windowIdxs waves rest window).map fun i => flux.getD i 0

/-- Per-catalog-entry body of the first loop of analyze_emission_lines
(source lines 42-85): skip an empty window, find prominent peaks, keep the
one closest to the rest wavelength; returns the observed wavelength and
peak flux of the matched line, or none. -/
def matchLine (waves flux : List ℚ) (rest window : ℚ) : Option (ℚ × ℚ) :=
  let ww := windowWaves waves rest window
  let wf := windowFlux waves flux rest window
  if ww.isEmpty then none
  else (closestPeak ww rest (findPeaks wf (1 / 2))).map fun q => (ww.getD q 0, wf.getD q 0)

/-! ## Continuum masking (analyze_emission_lines, second loop, lines 89-121) -/

/-- Gaussian-equivalent standard deviation the masking step derives from a
FWHM: source line 95, sigma = fwhm[0] / 2.355. -/
def maskSigma (fwhm : ℚ) : ℚ := fwhm / 2.355

/-- Masking window of a detected line (source lines 96-97):
observed wavelength minus and plus (fwhm / 2 + 3 * sigma). -/
def lineWindow (obs fwhm : ℚ) : ℚ × ℚ :=
  (obs - fwhm / 2 - 3 * maskSigma fwhm, obs + fwhm / 2 + 3 * maskSigma fwhm)

/-- One pass of continuum_mask &= ~mask (source lines 107-108), pairing the
running mask with the wavelength array elementwise. -/
def maskStep (ls le : ℚ) : List Bool → List ℚ → List Bool
  | m :: ms, w :: ws =>
    (m && !(decide (ls ≤ w) && decide (w ≤ le))) :: maskStep ls le ms ws
  | _, _ => []

/-- The continuum mask after processing every matched line, each line given
by its observed wavelength and FWHM; starts all-true (source line 40). -/
def continuum_mask (waves : List ℚ) (lines : List (ℚ × ℚ)) : List Bool :=
  lines.foldl
    (fun m l => maskStep (lineWindow l.1 l.2).1 (lineWindow l.1 l.2).2 m waves)
    (waves.map fun _ => true)

/-! ## Significance filtering (filter_and_prepare_linelist, lines 124-169) -/

/-- Arithmetic mean of a flux list (np.mean on a nonempty array). -/
def meanQ (l : List ℚ) : ℚ := l.sum / l.length

/-- np.mean with the NaN it produces on an empty array modelled as none. -/
def meanOpt (l : List ℚ) : Option ℚ :=
  if l.isEmpty then none else some (meanQ l)

/-- np.std with the NaN it produces on an empty array modelled as none; the
(irrational) value on nonempty input is the abstracted parameter stdFn. -/
def stdOpt (stdFn : List ℚ → ℚ) (l : List ℚ) : Option ℚ :=
  if l.isEmpty then none else some (stdFn l)

/-- Mean of a two-element list, with NaN (none) propagating as NaN. -/
def omean2 : Option ℚ → Option ℚ → Option ℚ
  | some a, some b => some ((a + b) / 2)
  | _, _ => none

/-- Flux column of the left side window (source lines 144-145). -/
def leftWindow (cont : List (ℚ × ℚ)) (lmin width : ℚ) : List ℚ :=
  (cont.filter fun s => decide (s.1 ≤ lmin) && decide (lmin - width ≤ s.1)).map (·.2)

/-- Flux column of the right side window (source lines 146-147). -/
def rightWindow (cont : List (ℚ × ℚ)) (lmax width : ℚ) : List ℚ :=
  (cont.filter fun s => decide (s.1 ≤ lmax + width) && decide (lmax ≤ s.1)).map (·.2)

/-- local_std of source line 149: the mean of the two side-window standard
deviations, NaN (none) when a side window is empty. -/
def localStd (stdFn : List ℚ → ℚ) (cont : List (ℚ × ℚ)) (lmin lmax width : ℚ) : Option ℚ :=
  omean2 (stdOpt stdFn (leftWindow cont lmin width)) (stdOpt stdFn (rightWindow cont lmax width))

/-- local_mean of source line 150. -/
def localMean (cont : List (ℚ × ℚ)) (lmin lmax width : ℚ) : Option ℚ :=
  omean2 (meanOpt (leftWindow cont lmin width)) (meanOpt (rightWindow cont lmax width))

/-- snr of source line 153: (peak flux minus local mean) over local std when
local_std > 0 holds (false for NaN), the external threshold otherwise. -/
def snrOf (stdFn : List ℚ → ℚ) (cont : List (ℚ × ℚ)) (lmin lmax width thr flux : ℚ) : ℚ :=
  match localStd stdFn cont lmin lmax width, localMean cont lmin lmax width with
  | some s, some m => if 0 < s then (flux - m) / s else thr
  | _, _ => thr

/-- Per-line body of filter_and_prepare_linelist (source lines 132-168):
returns the line_details record when the line is kept, none otherwise.
s2f abstracts the conversion sigma_max = fwhm / (2 * sqrt (2 * ln 2)). -/
def processLine (s2f : ℚ → ℚ) (stdFn : List ℚ → ℚ) (cont : List (ℚ × ℚ))
    (rng : ℚ × ℚ) (thr width : ℚ) (line : LineResult) : Option FilteredLine :=
  if rng.1 ≤ line.observed_wavelength ∧ line.observed_wavelength ≤ rng.2 then
    let sm := s2f line.fwhm
    let lmin := line.observed_wavelength - 2 * sm
    let lmax := line.observed_wavelength + 2 * sm
    let snr := snrOf stdFn cont lmin lmax width thr line.peak_flux
    if thr ≤ snr ∨ 3 * thr < line.peak_flux then
      some ⟨line.name, line.observed_wavelength, sm, lmin, lmax, 2, 1.5 * sm,
            line.peak_flux, snr⟩
    else none
  else none

/-- filter_and_prepare_linelist: the loop appends at most one record per
input line, in input order. -/
def filter_and_prepare_linelist (s2f : ℚ → ℚ) (stdFn : List ℚ → ℚ)
    (line_results : List LineResult) (cont : List (ℚ × ℚ))
    (rng : ℚ × ℚ) (thr width : ℚ) : List FilteredLine :=
  line_results.filterMap (processLine s2f stdFn cont rng thr width)

/-! ## Initial parameter table (initial_dataframe, source lines 188-250) -/

/-- Dictionary lookup emlines_dict[line_name] (source line 205). -/
def lookupEntry (cat : Catalog) (name : String) : Option CatalogEntry :=
  (cat.find? fun e => decide (e.1 = name)).map (·.2)

/-- Row the builder emits for one filtered line (source lines 204-227).
The source wraps the catalog's component model in a singleton list, so
Ncomp = 1, the single loop iteration has j = 0, and the emitted component
index is 1; the division of the amplitude by Ncomp is kept literally. -/
def rowOfLine (cat : Catalog) (l : FilteredLine) : Option ParameterRow :=
  match lookupEntry cat l.name with
  | none => none
  | some e =>
    match e.components with
    | .Voigt => some ⟨l.name, "Voigt", 1,
        [l.wavelength, l.max_flux / 1, l.sigma, 1.11 * l.sigma],
        [.fin l.min_loc, .fin 0, .fin l.min_sd, .fin (1.11 * l.min_sd)],
        [.fin l.max_loc, .fin l.max_flux, .fin l.max_sd, .fin (1.11 * l.max_sd)]⟩
    | .Gaussian => some ⟨l.name, "Gaussian", 1,
        [l.wavelength, l.max_flux / 1, l.sigma],
        [.fin l.min_loc, .fin 0, .fin l.min_sd],
        [.fin l.max_loc, .fin l.max_flux, .fin l.max_sd]⟩
    | .Lorentzian => some ⟨l.name, "Lorentzian", 1,
        [l.wavelength, l.max_flux / 1, 1.11 * l.sigma],
        [.fin l.min_loc, .fin 0, .fin (1.11 * l.min_sd)],
        [.fin l.max_loc, .fin l.max_flux, .fin (1.11 * l.max_sd)]⟩

/-- Rows of the line part of the table, one per filtered line; none when a
lookup fails (a KeyError in the source). -/
def buildRows (cat : Catalog) : List FilteredLine → Option (List ParameterRow)
  | [] => some []
  | l :: ls =>
    match rowOfLine cat l, buildRows cat ls with
    | some r, some rs => some (r :: rs)
    | _, _ => none

/-- The continuum row appended when continuum parameters are supplied
(source lines 238-248). -/
def contRow (ps : List ℚ) : ParameterRow :=
  ⟨"Continuum", "Continuum", 0, ps, [.fin 0, .fin 0, .fin 0], [.pinf, .pinf, .pinf]⟩

/-- Column names of the dataframe initial_dataframe constructs. -/
def stdCols : List String :=
  ["Line Name", "Model", "Component", "Parameters", "Max Limits", "Min Limits"]

/-- initial_dataframe: one row per filtered line, then the continuum row
when continuum parameters are given. -/
def initial_dataframe (cat : Catalog) (lines : List FilteredLine)
    (contPars : Option (List ℚ)) : Option Table :=
  match buildRows cat lines with
  | none => none
  | some rs =>
    match contPars with
    | some ps => some ⟨stdCols, rs ++ [contRow ps]⟩
    | none => some ⟨stdCols, rs⟩

/-! ## Bound recomputation (minmaxlim, source lines 285-342) -/

/-- Number of table rows carrying a given line name
(df[df['Line Name'] == name].shape[0], source line 309). -/
def sameLineCount (rows : List ParameterRow) (name : String) : ℕ :=
  (rows.filter fun x => decide (x.lineName = name)).length

/-- Amplitude scaling factor of source lines 305-318. -/
def ampFactor (rows : List ParameterRow) (r : ParameterRow) : ℚ :=
  if r.component = 1 then
    (if 1 < sameLineCount rows r.lineName then 2 else 1)
  else if r.component = 2 then 2
  else (2 : ℚ) ^ (r.component - 1)

/-- Bound vectors of one row (source lines 291-335); none when the model is
not one of the four known kinds (the branch that only prints). -/
def boundsFor (rows : List ParameterRow) (r : ParameterRow) : Option (List XQ × List XQ) :=
  let sigma := r.parameters.getD 2 0
  let minsig : ℚ := 2
  let maxsig : ℚ := 1.5 * sigma
  let w := r.parameters.getD 0 0
  let min_line := w - 2 * sigma
  let max_line := w + 2 * sigma
  let amp := r.parameters.getD 1 0
  let factor := ampFactor rows r
  if r.model = "Gaussian" then
    some ([.fin min_line, .fin 0, .fin minsig],
          [.fin max_line, .fin (amp * factor), .fin maxsig])
  else if r.model = "Lorentzian" then
    some ([.fin min_line, .fin 0, .fin (1.11 * minsig)],
          [.fin max_line, .fin (amp * factor), .fin (1.11 * maxsig)])
  else if r.model = "Voigt" then
    some ([.fin min_line, .fin 0, .fin minsig, .fin (1.11 * minsig)],
          [.fin max_line, .fin (amp * factor), .fin maxsig, .fin (1.11 * maxsig)])
  else if r.model = "Continuum" then
    some ([.ninf, .fin 0, .ninf], [.pinf, .pinf, .pinf])
  else none

/-- Row loop of minmaxlim.  The accumulator mirrors the Python local
variables min_i and max_i: on an unknown model the source prints and then
appends the still-bound values of the previous iteration, and raises
NameError (modelled as none) when no iteration has bound them yet. -/
def minmaxGo (all : List ParameterRow) :
    List ParameterRow → Option (List XQ × List XQ) → List (List XQ) → List (List XQ) →
    Option (List (List XQ) × List (List XQ))
  | [], _, amin, amax => some (amin.reverse, amax.reverse)
  | r :: rs, last, amin, amax =>
    match boundsFor all r with
    | some p => minmaxGo all rs (some p) (p.1 :: amin) (p.2 :: amax)
    | none =>
      match last with
      | some p => minmaxGo all rs (some p) (p.1 :: amin) (p.2 :: amax)
      | none => none

/-- minmaxlim: the per-row minimum and maximum bound vectors of a table. -/
def minmaxlim (rows : List ParameterRow) : Option (List (List XQ) × List (List XQ)) :=
  minmaxGo rows rows none [] []

/-! ## Component expansion (update_components, source lines 344-391) -/

/-- Index of the last row carrying the given line name
(updated_df[updated_df['Line Name'] == line].index[-1], source line 368). -/
def lastLineIdx (rows : List ParameterRow) (line : String) : Option ℕ :=
  ((List.range rows.length).filter fun i =>
    decide ((rows.getD i blankRow).lineName = line)).getLast?

/-- One addition (source lines 364-380): when the line is present, insert
after its last row a new row with the component index incremented, the
requested model, and the first three entries of the previous parameter
vector with the amplitude halved; when absent, only print and keep the rows.
An empty component list makes the source raise IndexError (none here). -/
def insertComponent (rows : List ParameterRow) (line : String) (comps : List String) :
    Option (List ParameterRow) :=
  match lastLineIdx rows line with
  | none => some rows
  | some li =>
    match comps with
    | [] => none
    | c :: _ =>
      let prev := rows.getD li blankRow
      let p := prev.parameters
      let newRow : ParameterRow :=
        ⟨line, c, prev.component + 1, [p.getD 0 0, p.getD 1 0 / 2, p.getD 2 0], [], []⟩
      some (rows.take (li + 1) ++ newRow :: rows.drop (li + 1))

/-- The additions loop of update_components. -/
def withAdditions (rows : List ParameterRow) :
    List (String × List String) → Option (List ParameterRow)
  | [] => some rows
  | (l, cs) :: rest =>
    match insertComponent rows l cs with
    | none => none
    | some rows2 => withAdditions rows2 rest

/-- Column assignment of source lines 386-387: replace every row's bound
vectors by the freshly computed ones, positionally. -/
def applyLimits : List ParameterRow → List (List XQ) → List (List XQ) → List ParameterRow
  | r :: rs, mn :: mns, mx :: mxs =>
    ⟨r.lineName, r.model, r.component, r.parameters, mn, mx⟩ :: applyLimits rs mns mxs
  | _, _, _ => []

/-- update_components: drop the 'Parameter Errors' column (KeyError, modelled
as none, when it is absent), run the additions loop, then recompute every
row's bounds with minmaxlim. -/
def update_components (df : Table) (adds : List (String × List String)) : Option Table :=
  if "Parameter Errors" ∈ df.cols then
    match withAdditions df.rows adds with
    | none => none
    | some rows2 =>
      match minmaxlim rows2 with
      | none => none
      | some p => some ⟨df.cols.erase "Parameter Errors", applyLimits rows2 p.1 p.2⟩
  else none

/-! ## Claim-side definitions -/

/-- Elementwise bound check: the two bound vectors have the length of the
parameter vector and bracket it entrywise. -/
def boundsOK (params : List ℚ) (mins maxs : List XQ) : Bool :=
  decide (mins.length = params.length) && decide (maxs.length = params.length) &&
  ((params.zip (mins.zip maxs)).all fun pc =>
    pc.2.1.leb (.fin pc.1) && (XQ.fin pc.1).leb pc.2.2)

/-- The data-model invariant on one row: min bounds below the parameters
below the max bounds, elementwise. -/
def rowInvariant (r : ParameterRow) : Bool :=
  boundsOK r.parameters r.minLimits r.maxLimits

/-- Amplitude scaling rule exactly as the specification words it: factor 1
for a line's sole component, 2 for component index 1 or 2 with multiple
components present, 2 to the power (index - 1) for index at least 3. -/
def claimAmpFactor (rows : List ParameterRow) (r : ParameterRow) : ℚ :=
  if sameLineCount rows r.lineName = 1 then 1
  else if r.component = 1 ∨ r.component = 2 then 2
  else (2 : ℚ) ^ (r.component - 1)

/-- FWHM-to-sigma conversion exactly as the specification words it:
sigma = fwhm / 2.3548. -/
def claimSigma (fwhm : ℚ) : ℚ := fwhm / 2.3548

/-! ## Concrete inputs used by counterexamples and witnesses -/

/-- A filtered line whose derived sigma is 1, below the fixed width bound
2.0; realizable by the filter whenever the measured FWHM is about 2.355 and
the peak flux clears the absolute-significance escape hatch. -/
def lowLine : FilteredLine := ⟨"L", 10, 1, 8, 12, 2, 1.5, 100, 0⟩

/-- Catalog holding the single Gaussian entry the counterexamples use. -/
def lowCat : Catalog := [("L", ⟨some 10, .Gaussian⟩)]

/-- A healthy filtered line (sigma = 3) for witness instances. -/
def wLine : FilteredLine := ⟨"L", 10, 3, 4, 16, 2, 4.5, 5, 0⟩

/-- The row initial_dataframe builds from wLine. -/
def wRow2 : ParameterRow :=
  ⟨"L", "Gaussian", 1, [10, 5, 3], [.fin 4, .fin 0, .fin 2], [.fin 16, .fin 5, .fin 4.5]⟩

/-- The table initial_dataframe builds from wLine plus continuum parameters. -/
def wTab2 : Table := ⟨stdCols, [wRow2, contRow [1, 2, 3]]⟩

/-- A parameter row with a model name outside the four known kinds. -/
def fooRow : ParameterRow := ⟨"L", "Moffat", 1, [5, 3, 1], [], []⟩

/-- A plain Gaussian row used alongside fooRow. -/
def gRow9 : ParameterRow := ⟨"M", "Gaussian", 1, [10, 8, 3], [], []⟩

/-- A sole row carrying component index 2, for the C6 counterexample. -/
def soleRow : ParameterRow := ⟨"L", "Gaussian", 2, [10, 5, 3], [], []⟩

/-- A one-row Voigt table as a previous fit would hand it to
update_components, for the C5 counterexample. -/
def voigtTable : Table :=
  ⟨stdCols ++ ["Parameter Errors"], [⟨"Hb", "Voigt", 1, [10, 8, 2, 3], [], []⟩]⟩

/-- A one-row Gaussian table with the fit's error column, for C5 and C6. -/
def wTable5 : Table :=
  ⟨stdCols ++ ["Parameter Errors"], [⟨"L", "Gaussian", 1, [10, 8, 3], [], []⟩]⟩

/-- Expanded table of the C5 witness scenario. -/
def wRes5 : Table := (update_components wTable5 [("L", ["Lorentzian"])]).getD ⟨[], []⟩

/-- Recomputed table of the C6 witness scenario. -/
def wRes6 : Table := (update_components wTable5 []).getD ⟨[], []⟩

/-- First row of the recomputed C6 witness table. -/
def wRow6 : ParameterRow := wRes6.rows.getD 0 blankRow

/-! ## General list helpers -/

theorem lt_of_get?_eq_some {α : Type} :
    ∀ (l : List α) (n : ℕ) (a : α), l.get? n = some a → n < l.length := by
  intro l
  induction l with
  | nil => intro n a h; simp [List.get?] at h
  | cons x xs ih =>
    intro n a h
    cases n with
    | zero => simp
    | succ n =>
      simp only [List.get?] at h
      simpa using Nat.succ_lt_succ (ih n a h)

theorem getD_of_get?_eq_some {α : Type} (l : List α) (n : ℕ) (d a : α)
    (h : l.get? n = some a) : l.getD n d = a := by
  rw [List.get?_eq_getElem?] at h
  simp [List.getD, h]

/-! ## Peak-selection lemmas (claim C3) -/

theorem cpGo_spec (ww : List ℚ) (rest : ℚ) (qs : List ℕ) :
    ∀ (q0 : ℕ) (d0 : ℚ), d0 = |ww.getD q0 0 - rest| →
    ∃ q, cpGo ww rest qs (some (q0, d0)) = some (q, |ww.getD q 0 - rest|) ∧
      (q = q0 ∨ q ∈ qs) ∧ |ww.getD q 0 - rest| ≤ d0 ∧
      ∀ q' ∈ qs, |ww.getD q 0 - rest| ≤ |ww.getD q' 0 - rest| := by
  induction qs with
  | nil =>
    intro q0 d0 h
    exact ⟨q0, by simp [cpGo, h], Or.inl rfl, h ▸ le_refl _, by simp⟩
  | cons q qs ih =>
    intro q0 d0 h
    by_cases hc : |ww.getD q 0 - rest| < d0
    · obtain ⟨qq, hrun, hmem, hle, hall⟩ := ih q (|ww.getD q 0 - rest|) rfl
      refine ⟨qq, ?_, ?_, le_trans hle hc.le, ?_⟩
      · have hstep : cpGo ww rest (q :: qs) (some (q0, d0)) =
            if |ww.getD q 0 - rest| < d0 then
              cpGo ww rest qs (some (q, |ww.getD q 0 - rest|))
            else cpGo ww rest qs (some (q0, d0)) := rfl
        rw [hstep, if_pos hc]
        exact hrun
      · rcases hmem with h1 | h1
        · exact Or.inr (h1 ▸ List.mem_cons_self _ _)
        · exact Or.inr (List.mem_cons_of_mem _ h1)
      · intro q' hq'
        rcases List.mem_cons.mp hq' with h1 | h1
        · exact h1 ▸ hle
        · exact hall q' h1
    · obtain ⟨qq, hrun, hmem, hle, hall⟩ := ih q0 d0 h
      refine ⟨qq, ?_, ?_, hle, ?_⟩
      · have hstep : cpGo ww rest (q :: qs) (some (q0, d0)) =
            if |ww.getD q 0 - rest| < d0 then
              cpGo ww rest qs (some (q, |ww.getD q 0 - rest|))
            else cpGo ww rest qs (some (q0, d0)) := rfl
        rw [hstep, if_neg hc]
        exact hrun
      · rcases hmem with h1 | h1
        · exact Or.inl h1
        · exact Or.inr (List.mem_cons_of_mem _ h1)
      · intro q' hq'
        rcases List.mem_cons.mp hq' with h1 | h1
        · exact h1 ▸ le_trans hle (not_lt.mp hc)
        · exact hall q' h1

theorem closestPeak_spec (ww : List ℚ) (rest : ℚ) (peaks : List ℕ) (h : peaks ≠ []) :
    ∃ q ∈ peaks, closestPeak ww rest peaks = some q ∧
      ∀ q' ∈ peaks, |ww.getD q 0 - rest| ≤ |ww.getD q' 0 - rest| := by
  cases peaks with
  | nil => exact absurd rfl h
  | cons q qs =>
    obtain ⟨qq, hrun, hmem, hle, hall⟩ := cpGo_spec ww rest qs q (|ww.getD q 0 - rest|) rfl
    have hrm : closestPeak ww rest (q :: qs) = some qq := by
      unfold closestPeak
      have hstep : cpGo ww rest (q :: qs) none =
          cpGo ww rest qs (some (q, |ww.getD q 0 - rest|)) := rfl
      rw [hstep, hrun]
      rfl
    refine ⟨qq, ?_, hrm, ?_⟩
    · rcases hmem with h1 | h1
      · exact h1 ▸ List.mem_cons_self _ _
      · exact List.mem_cons_of_mem _ h1
    · intro q' hq'
      rcases List.mem_cons.mp hq' with h1 | h1
      · exact h1 ▸ hle
      · exact hall q' h1

theorem windowWaves_nil_of_flux (waves flux : List ℚ) (rest window : ℚ)
    (h : windowWaves waves rest window = []) :
    windowFlux waves flux rest window = [] := by
  unfold windowWaves at h
  unfold windowFlux
  rcases List.map_eq_nil_iff.mp h with h2
  rw [h2]
  rfl

/-- Claim C3 (amended): for a catalog entry with a defined rest wavelength,
an empty detection window produces no match (and no error); no prominent
peak (threshold read inclusively, prominence at least 0.5, as
scipy.signal.find_peaks implements it) produces no match; and otherwise the
detector produces exactly one match, located at a prominent peak whose
observed wavelength minimizes the absolute difference to the rest
wavelength. -/
theorem C3_peak_selection (waves flux : List ℚ) (rest window : ℚ) :
    (windowWaves waves rest window = [] → matchLine waves flux rest window = none) ∧
    (findPeaks (windowFlux waves flux rest window) (1 / 2) = [] →
      matchLine waves flux rest window = none) ∧
    (findPeaks (windowFlux waves flux rest window) (1 / 2) ≠ [] →
      ∃ q ∈ findPeaks (windowFlux waves flux rest window) (1 / 2),
        matchLine waves flux rest window =
          some ((windowWaves waves rest window).getD q 0,
                (windowFlux waves flux rest window).getD q 0) ∧
        ∀ q' ∈ findPeaks (windowFlux waves flux rest window) (1 / 2),
          |(windowWaves waves rest window).getD q 0 - rest| ≤
          |(windowWaves waves rest window).getD q' 0 - rest|) := by
  refine ⟨?_, ?_, ?_⟩
  · intro h
    unfold matchLine
    rw [if_pos]
    exact List.isEmpty_iff.mpr h
  · intro h
    unfold matchLine
    by_cases hw : windowWaves waves rest window = []
    · rw [if_pos (List.isEmpty_iff.mpr hw)]
    · rw [if_neg (fun hc => hw (List.isEmpty_iff.mp hc))]
      rw [h]
      rfl
  · intro h
    have hw : windowWaves waves rest window ≠ [] := by
      intro hc
      exact h (by rw [windowWaves_nil_of_flux waves flux rest window hc]; rfl)
    obtain ⟨q, hqmem, hrun, hall⟩ :=
      closestPeak_spec (windowWaves waves rest window) rest
        (findPeaks (windowFlux waves flux rest window) (1 / 2)) h
    refine ⟨q, hqmem, ?_, hall⟩
    unfold matchLine
    rw [if_neg (fun hc => hw (List.isEmpty_iff.mp hc))]
    rw [hrun]
    rfl

/-- Claim C3 counterexample: on the spectrum (0,0),(1,1/2),(2,0) with rest
wavelength 1, the sample at index 1 is a local maximum of prominence exactly
0.5, so no maximum has prominence strictly exceeding 0.5; the claim then
requires no detected line, yet the detector produces one. -/
theorem C3_counterexample :
    matchLine [0, 1, 2] [0, 1 / 2, 0] 1 20 = some (1, 1 / 2) ∧
    ((List.range 3).filter fun p =>
      isPeak [0, 1 / 2, 0] p && decide ((1 : ℚ) / 2 < prominence [0, 1 / 2, 0] p)) = [] := by
  with_unfolding_all decide

/-- Claim C3 witness: on a window holding two equally prominent peaks at
wavelengths 1 and 3 with rest wavelength 2, a match is produced at a peak of
minimal wavelength distance. -/
theorem C3_witness :
    ∃ q ∈ findPeaks (windowFlux [0, 1, 2, 3, 4] [0, 3, 0, 3, 0] 2 20) (1 / 2),
      matchLine [0, 1, 2, 3, 4] [0, 3, 0, 3, 0] 2 20 =
        some ((windowWaves [0, 1, 2, 3, 4] 2 20).getD q 0,
              (windowFlux [0, 1, 2, 3, 4] [0, 3, 0, 3, 0] 2 20).getD q 0) ∧
      ∀ q' ∈ findPeaks (windowFlux [0, 1, 2, 3, 4] [0, 3, 0, 3, 0] 2 20) (1 / 2),
        |(windowWaves [0, 1, 2, 3, 4] 2 20).getD q 0 - 2| ≤
        |(windowWaves [0, 1, 2, 3, 4] 2 20).getD q' 0 - 2| :=
  (C3_peak_selection [0, 1, 2, 3, 4] [0, 3, 0, 3, 0] 2 20).2.2 (by with_unfolding_all decide)

/-! ## Continuum-mask lemmas (claims C7 and C8) -/

theorem maskStep_get (ls le : ℚ) :
    ∀ (ms : List Bool) (ws : List ℚ) (i : ℕ) (b : Bool) (w : ℚ),
      ms.get? i = some b → ws.get? i = some w →
      (maskStep ls le ms ws).get? i =
        some (b && !(decide (ls ≤ w) && decide (w ≤ le))) := by
  intro ms
  induction ms with
  | nil => intro ws i b w hb _; simp [List.get?] at hb
  | cons m ms ih =>
    intro ws i b w hb hw
    cases ws with
    | nil => simp [List.get?] at hw
    | cons w0 ws =>
      cases i with
      | zero =>
        simp only [List.get?] at hb hw
        injection hb with hb
        injection hw with hw
        subst hb; subst hw
        simp [maskStep, List.get?]
      | succ i =>
        simp only [List.get?] at hb hw
        simpa [maskStep, List.get?] using ih ws i b w hb hw

theorem mask_fold_get (waves : List ℚ) :
    ∀ (lines : List (ℚ × ℚ)) (m : List Bool) (i : ℕ) (b : Bool) (w : ℚ),
      waves.get? i = some w → m.get? i = some b →
      ((lines.foldl
        (fun m l => maskStep (lineWindow l.1 l.2).1 (lineWindow l.1 l.2).2 m waves) m).get? i) =
        some (b && lines.all fun l =>
          !(decide ((lineWindow l.1 l.2).1 ≤ w) && decide (w ≤ (lineWindow l.1 l.2).2))) := by
  intro lines
  induction lines with
  | nil => intro m i b w _ hb; simpa using hb
  | cons l ls ih =>
    intro m i b w hw hb
    have h1 := maskStep_get (lineWindow l.1 l.2).1 (lineWindow l.1 l.2).2 m waves i b w hb hw
    have h2 := ih _ i _ w hw h1
    simp only [List.foldl_cons]
    rw [h2]
    congr 1
    simp [Bool.and_assoc]

/-- Claim C7: a sample whose wavelength lies inside the masking window of
any detected line is never flagged as continuum by the mask the detector
builds. -/
theorem C7_mask_excludes (waves : List ℚ) (lines : List (ℚ × ℚ)) (i : ℕ) (w : ℚ)
    (hw : waves.get? i = some w)
    (hin : ∃ l ∈ lines, (lineWindow l.1 l.2).1 ≤ w ∧ w ≤ (lineWindow l.1 l.2).2) :
    (continuum_mask waves lines).get? i = some false := by
  obtain ⟨l, hl, h1, h2⟩ := hin
  have hinit : (waves.map fun _ => true).get? i = some true := by
    rw [List.get?_map, hw]; rfl
  have hfold := mask_fold_get waves lines (waves.map fun _ => true) i true w hw hinit
  rw [continuum_mask, hfold]
  have hfalse : (lines.all fun l =>
      !(decide ((lineWindow l.1 l.2).1 ≤ w) && decide (w ≤ (lineWindow l.1 l.2).2))) = false := by
    rcases Bool.eq_false_or_eq_true (lines.all fun l =>
        !(decide ((lineWindow l.1 l.2).1 ≤ w) && decide (w ≤ (lineWindow l.1 l.2).2))) with
      hcase | hcase
    · exfalso
      have := List.all_eq_true.mp hcase l hl
      simp [h1, h2] at this
    · exact hcase
  rw [hfalse]
  rfl

/-- Claim C7 witness: the sample at wavelength 10 inside the window of a
line observed at 10 with FWHM 2.355 is flagged non-continuum. -/
theorem C7_witness : (continuum_mask [0, 10, 20] [(10, 2.355)]).get? 1 = some false :=
  C7_mask_excludes [0, 10, 20] [(10, 2.355)] 1 10 (by with_unfolding_all decide)
    ⟨(10, 2.355), by with_unfolding_all decide, by with_unfolding_all decide,
      by with_unfolding_all decide⟩

/-- Claim C8 counterexample: at FWHM 2.355 the masking step derives sigma
exactly 1, while the claimed conversion fwhm / 2.3548 does not give 1. -/
theorem C8_counterexample : maskSigma 2.355 = 1 ∧ claimSigma 2.355 ≠ 1 := by
  with_unfolding_all decide

/-- Claim C8 (amended): the Gaussian-equivalent standard deviation used by
the masking step equals fwhm / 2.355 (the source's rounded constant), which
differs from the claimed fwhm / 2.3548 at every nonzero FWHM. -/
theorem C8_sigma_conversion :
    (∀ obs f : ℚ, lineWindow obs f =
      (obs - f / 2 - 3 * (f / 2.355), obs + f / 2 + 3 * (f / 2.355))) ∧
    (∀ f : ℚ, f ≠ 0 → maskSigma f ≠ claimSigma f) := by
  constructor
  · intro obs f; rfl
  · intro f hf h
    unfold maskSigma claimSigma at h
    rw [div_eq_div_iff (by norm_num) (by norm_num)] at h
    exact absurd (mul_left_cancel₀ hf h) (by norm_num)

/-- Claim C8 witness: the amended conversion instantiated at a concrete
window and a concrete nonzero FWHM. -/
theorem C8_witness :
    lineWindow 5 2 = (5 - 2 / 2 - 3 * (2 / 2.355), 5 + 2 / 2 + 3 * (2 / 2.355)) ∧
    maskSigma 1 ≠ claimSigma 1 :=
  ⟨C8_sigma_conversion.1 5 2, C8_sigma_conversion.2 1 (by norm_num)⟩

/-! ## Significance-filter theorem (claim C4) -/

/-- Claim C4: a resolved line inside the wavelength range is kept if and
only if its local SNR reaches the noise threshold or its peak flux exceeds
three times the threshold; a zero local standard deviation forces
SNR = threshold (the degenerate-statistics fallback), and the filter output
is exactly the per-line decisions in input order. -/
theorem C4_filter_iff (s2f : ℚ → ℚ) (stdFn : List ℚ → ℚ) (cont : List (ℚ × ℚ))
    (rng : ℚ × ℚ) (thr width : ℚ) (line : LineResult) :
    (¬ (rng.1 ≤ line.observed_wavelength ∧ line.observed_wavelength ≤ rng.2) →
      processLine s2f stdFn cont rng thr width line = none) ∧
    ((rng.1 ≤ line.observed_wavelength ∧ line.observed_wavelength ≤ rng.2) →
      ((processLine s2f stdFn cont rng thr width line).isSome ↔
        (thr ≤ snrOf stdFn cont (line.observed_wavelength - 2 * s2f line.fwhm)
            (line.observed_wavelength + 2 * s2f line.fwhm) width thr line.peak_flux ∨
          3 * thr < line.peak_flux))) ∧
    (∀ lmin lmax, localStd stdFn cont lmin lmax width = some 0 →
      snrOf stdFn cont lmin lmax width thr line.peak_flux = thr) ∧
    (∀ rs, filter_and_prepare_linelist s2f stdFn rs cont rng thr width =
      rs.filterMap (processLine s2f stdFn cont rng thr width)) := by
  refine ⟨?_, ?_, ?_, fun rs => rfl⟩
  · intro h
    simp [processLine, h]
  · intro h
    by_cases hp : thr ≤ snrOf stdFn cont (line.observed_wavelength - 2 * s2f line.fwhm)
        (line.observed_wavelength + 2 * s2f line.fwhm) width thr line.peak_flux ∨
        3 * thr < line.peak_flux
    · simp [processLine, h, hp]
    · simp [processLine, h, hp]
  · intro lmin lmax hstd
    unfold snrOf
    rw [hstd]
    cases hm : localMean cont lmin lmax width with
    | none => rfl
    | some m => simp

/-- Claim C4 witness: with empty side windows the SNR falls back to the
threshold and a concrete in-range line is kept. -/
theorem C4_witness :
    (processLine (fun f => f) (fun _ => 0) [] (0, 20) 1 10 ⟨"L", 10, 10, 2, 100⟩).isSome ↔
      (1 ≤ snrOf (fun _ => 0) []
          ((⟨"L", 10, 10, 2, 100⟩ : LineResult).observed_wavelength -
            2 * (fun f => f) (⟨"L", 10, 10, 2, 100⟩ : LineResult).fwhm)
          ((⟨"L", 10, 10, 2, 100⟩ : LineResult).observed_wavelength +
            2 * (fun f => f) (⟨"L", 10, 10, 2, 100⟩ : LineResult).fwhm)
          10 1 (⟨"L", 10, 10, 2, 100⟩ : LineResult).peak_flux ∨
        3 * 1 < (⟨"L", 10, 10, 2, 100⟩ : LineResult).peak_flux) :=
  (C4_filter_iff (fun f => f) (fun _ => 0) [] (0, 20) 1 10 ⟨"L", 10, 10, 2, 100⟩).2.1
    (by norm_num)

/-! ## Table-construction lemmas (claims C2, C1 and C10) -/

theorem rowOfLine_component (cat : Catalog) (l : FilteredLine) (r : ParameterRow)
    (h : rowOfLine cat l = some r) : r.component = 1 := by
  unfold rowOfLine at h
  cases hl : lookupEntry cat l.name with
  | none => rw [hl] at h; cases h
  | some e =>
    rw [hl] at h
    obtain ⟨wv, comps⟩ := e
    cases comps <;> (dsimp only at h; injection h with h; subst h; rfl)

theorem buildRows_spec (cat : Catalog) :
    ∀ (lines : List FilteredLine) (rs : List ParameterRow),
      buildRows cat lines = some rs →
      rs.length = lines.length ∧ ∀ r ∈ rs, r.component = 1 := by
  intro lines
  induction lines with
  | nil =>
    intro rs h
    injection h with h
    subst h
    exact ⟨rfl, by simp⟩
  | cons l ls ih =>
    intro rs h
    unfold buildRows at h
    cases h1 : rowOfLine cat l with
    | none => rw [h1] at h; cases h
    | some r =>
      cases h2 : buildRows cat ls with
      | none => rw [h1, h2] at h; cases h
      | some rs2 =>
        rw [h1, h2] at h
        injection h with h
        subst h
        obtain ⟨hlen, hcomp⟩ := ih rs2 h2
        refine ⟨by simp [hlen], ?_⟩
        intro r2 hr2
        rcases List.mem_cons.mp hr2 with h3 | h3
        · exact h3 ▸ rowOfLine_component cat l r h1
        · exact hcomp r2 h3

/-- Claim C2: initial_dataframe emits exactly one component-1 row per
filtered line, appends exactly one continuum row (component 0, min bounds
all 0, max bounds all infinite) exactly when continuum parameters are
given, so the row count is the line count plus an indicator of the
continuum parameters, and an empty line list with continuum parameters
yields the continuum row alone. -/
theorem C2_table_shape (cat : Catalog) (lines : List FilteredLine)
    (contPars : Option (List ℚ)) (t : Table)
    (ht : initial_dataframe cat lines contPars = some t) :
    (∃ rs, buildRows cat lines = some rs ∧ rs.length = lines.length ∧
      (∀ r ∈ rs, r.component = 1) ∧
      t.rows = rs ++ contPars.elim [] fun ps => [contRow ps]) ∧
    t.rows.length = lines.length + (if contPars.isSome then 1 else 0) ∧
    (∀ ps, contPars = some ps → lines = [] → t.rows = [contRow ps]) := by
  unfold initial_dataframe at ht
  cases hb : buildRows cat lines with
  | none => rw [hb] at ht; cases ht
  | some rs =>
    rw [hb] at ht
    obtain ⟨hlen, hcomp⟩ := buildRows_spec cat lines rs hb
    cases contPars with
    | none =>
      injection ht with ht
      subst ht
      refine ⟨⟨rs, rfl, hlen, hcomp, by simp [Option.elim]⟩, by simp [hlen], ?_⟩
      intro ps hps
      cases hps
    | some ps =>
      injection ht with ht
      subst ht
      refine ⟨⟨rs, rfl, hlen, hcomp, by simp [Option.elim]⟩, by simp [hlen], ?_⟩
      intro ps2 hps hlines
      injection hps with hps
      subst hps
      subst hlines
      have : rs = [] := List.length_eq_zero.mp (by simpa using hlen)
      subst this
      rfl

/-- Claim C2 witness: a one-line catalog with continuum parameters yields
exactly the line row and the trailing continuum row. -/
theorem C2_witness :
    (∃ rs, buildRows lowCat [wLine] = some rs ∧ rs.length = [wLine].length ∧
      (∀ r ∈ rs, r.component = 1) ∧
      wTab2.rows = rs ++ (some [1, 2, 3] : Option (List ℚ)).elim [] fun ps => [contRow ps]) ∧
    wTab2.rows.length = [wLine].length +
      (if (some [1, 2, 3] : Option (List ℚ)).isSome then 1 else 0) ∧
    (∀ ps, (some [1, 2, 3] : Option (List ℚ)) = some ps → [wLine] = [] →
      wTab2.rows = [contRow ps]) :=
  C2_table_shape lowCat [wLine] (some [1, 2, 3]) wTab2 (by with_unfolding_all decide)

/-- Claim C10: update_components unconditionally drops a 'Parameter Errors'
column, so on any table lacking that column — in particular any table
initial_dataframe builds — it fails instead of returning an expanded
table. -/
theorem C10_requires_param_errors :
    (∀ (df : Table) (adds : List (String × List String)),
      "Parameter Errors" ∉ df.cols → update_components df adds = none) ∧
    (∀ (cat : Catalog) (lines : List FilteredLine) (contPars : Option (List ℚ))
       (t : Table) (adds : List (String × List String)),
      initial_dataframe cat lines contPars = some t → update_components t adds = none) := by
  have h1 : ∀ (df : Table) (adds : List (String × List String)),
      "Parameter Errors" ∉ df.cols → update_components df adds = none := by
    intro df adds h
    simp [update_components, h]
  refine ⟨h1, ?_⟩
  intro cat lines contPars t adds ht
  have hc : t.cols = stdCols := by
    unfold initial_dataframe at ht
    cases hb : buildRows cat lines with
    | none => rw [hb] at ht; cases ht
    | some rs =>
      rw [hb] at ht
      cases contPars <;> (injection ht with ht; subst ht; rfl)
  apply h1
  rw [hc]
  decide

/-- Claim C10 witness: update_components fails on a table carrying exactly
the columns initial_dataframe produces. -/
theorem C10_witness : update_components ⟨stdCols, []⟩ [] = none :=
  C10_requires_param_errors.1 ⟨stdCols, []⟩ [] (by decide)

/-! ## Bound-recomputation lemmas (claims C5, C6, C9 and C1) -/

theorem update_components_eq (df : Table) (adds : List (String × List String)) (t : Table)
    (ht : update_components df adds = some t) :
    ∃ rows2 mins maxs, withAdditions df.rows adds = some rows2 ∧
      minmaxlim rows2 = some (mins, maxs) ∧
      t = ⟨df.cols.erase "Parameter Errors", applyLimits rows2 mins maxs⟩ := by
  unfold update_components at ht
  by_cases hm : "Parameter Errors" ∈ df.cols
  · rw [if_pos hm] at ht
    cases hw : withAdditions df.rows adds with
    | none => rw [hw] at ht; cases ht
    | some rows2 =>
      rw [hw] at ht
      dsimp only at ht
      cases hmm : minmaxlim rows2 with
      | none => rw [hmm] at ht; cases ht
      | some p =>
        rw [hmm] at ht
        dsimp only at ht
        injection ht with ht
        exact ⟨rows2, p.1, p.2, rfl, by rw [hmm], ht.symm⟩
  · rw [if_neg hm] at ht; cases ht

theorem minmaxGo_isSome (all : List ParameterRow) :
    ∀ (l : List ParameterRow) (p : List XQ × List XQ) (amin amax : List (List XQ)),
      ∃ mins maxs, minmaxGo all l (some p) amin amax = some (mins, maxs) ∧
        mins.length = amin.length + l.length ∧ maxs.length = amax.length + l.length := by
  intro l
  induction l with
  | nil =>
    intro p amin amax
    exact ⟨amin.reverse, amax.reverse, rfl, by simp, by simp⟩
  | cons r rs ih =>
    intro p amin amax
    cases hb : boundsFor all r with
    | some p2 =>
      obtain ⟨mins, maxs, hrun, h1, h2⟩ := ih p2 (p2.1 :: amin) (p2.2 :: amax)
      refine ⟨mins, maxs, ?_, by simp at h1 ⊢; omega, by simp at h2 ⊢; omega⟩
      have hstep : minmaxGo all (r :: rs) (some p) amin amax =
          minmaxGo all rs (some p2) (p2.1 :: amin) (p2.2 :: amax) := by
        simp [minmaxGo, hb]
      rw [hstep]
      exact hrun
    | none =>
      obtain ⟨mins, maxs, hrun, h1, h2⟩ := ih p (p.1 :: amin) (p.2 :: amax)
      refine ⟨mins, maxs, ?_, by simp at h1 ⊢; omega, by simp at h2 ⊢; omega⟩
      have hstep : minmaxGo all (r :: rs) (some p) amin amax =
          minmaxGo all rs (some p) (p.1 :: amin) (p.2 :: amax) := by
        simp [minmaxGo, hb]
      rw [hstep]
      exact hrun

theorem minmaxGo_shape (all : List ParameterRow) :
    ∀ (l : List ParameterRow) (last : Option (List XQ × List XQ))
      (amin amax : List (List XQ)) (mins maxs : List (List XQ)),
      minmaxGo all l last amin amax = some (mins, maxs) →
      ∃ tmins tmaxs, mins = amin.reverse ++ tmins ∧ maxs = amax.reverse ++ tmaxs ∧
        tmins.length = l.length ∧ tmaxs.length = l.length ∧
        ∀ i r p, l.get? i = some r → boundsFor all r = some p →
          tmins.get? i = some p.1 ∧ tmaxs.get? i = some p.2 := by
  intro l
  induction l with
  | nil =>
    intro last amin amax mins maxs h
    injection h with h
    have h1 := congrArg Prod.fst h
    have h2 := congrArg Prod.snd h
    simp only at h1 h2
    refine ⟨[], [], by simp [h1.symm], by simp [h2.symm], rfl, rfl, ?_⟩
    intro i r p hi
    simp [List.get?] at hi
  | cons r0 rs ih =>
    intro last amin amax mins maxs h
    cases hb : boundsFor all r0 with
    | some p2 =>
      have hstep : minmaxGo all (r0 :: rs) last amin amax =
          minmaxGo all rs (some p2) (p2.1 :: amin) (p2.2 :: amax) := by
        simp [minmaxGo, hb]
      rw [hstep] at h
      obtain ⟨tm, tx, h1, h2, h3, h4, h5⟩ := ih (some p2) (p2.1 :: amin) (p2.2 :: amax) mins maxs h
      refine ⟨p2.1 :: tm, p2.2 :: tx, ?_, ?_, by simp [h3], by simp [h4], ?_⟩
      · rw [h1]; simp
      · rw [h2]; simp
      · intro i r p hi hbp
        cases i with
        | zero =>
          simp only [List.get?] at hi
          injection hi with hi
          subst hi
          rw [hb] at hbp
          injection hbp with hbp
          subst hbp
          exact ⟨rfl, rfl⟩
        | succ i =>
          simp only [List.get?] at hi ⊢
          exact h5 i r p hi hbp
    | none =>
      cases last with
      | none =>
        have hstep : minmaxGo all (r0 :: rs) none amin amax = none := by
          simp [minmaxGo, hb]
        rw [hstep] at h
        cases h
      | some pl =>
        have hstep : minmaxGo all (r0 :: rs) (some pl) amin amax =
            minmaxGo all rs (some pl) (pl.1 :: amin) (pl.2 :: amax) := by
          simp [minmaxGo, hb]
        rw [hstep] at h
        obtain ⟨tm, tx, h1, h2, h3, h4, h5⟩ := ih (some pl) (pl.1 :: amin) (pl.2 :: amax) mins maxs h
        refine ⟨pl.1 :: tm, pl.2 :: tx, ?_, ?_, by simp [h3], by simp [h4], ?_⟩
        · rw [h1]; simp
        · rw [h2]; simp
        · intro i r p hi hbp
          cases i with
          | zero =>
            simp only [List.get?] at hi
            injection hi with hi
            subst hi
            rw [hb] at hbp
            cases hbp
          | succ i =>
            simp only [List.get?] at hi ⊢
            exact h5 i r p hi hbp

theorem minmaxlim_shape (rows : List ParameterRow) (mins maxs : List (List XQ))
    (h : minmaxlim rows = some (mins, maxs)) :
    mins.length = rows.length ∧ maxs.length = rows.length ∧
    ∀ i r p, rows.get? i = some r → boundsFor rows r = some p →
      mins.get? i = some p.1 ∧ maxs.get? i = some p.2 := by
  obtain ⟨tm, tx, h1, h2, h3, h4, h5⟩ := minmaxGo_shape rows rows none [] [] mins maxs h
  simp at h1 h2
  subst h1
  subst h2
  exact ⟨h3, h4, h5⟩

theorem applyLimits_length :
    ∀ (rows : List ParameterRow) (mns mxs : List (List XQ)),
      mns.length = rows.length → mxs.length = rows.length →
      (applyLimits rows mns mxs).length = rows.length := by
  intro rows
  induction rows with
  | nil => intro mns mxs _ _; cases mns <;> cases mxs <;> rfl
  | cons r rs ih =>
    intro mns mxs hmn hmx
    cases mns with
    | nil => simp at hmn
    | cons mn mns =>
      cases mxs with
      | nil => simp at hmx
      | cons mx mxs =>
        simp only [applyLimits, List.length_cons]
        simp only [List.length_cons] at hmn hmx
        rw [ih mns mxs (by omega) (by omega)]

theorem applyLimits_get? :
    ∀ (rows : List ParameterRow) (mns mxs : List (List XQ)) (i : ℕ) (r : ParameterRow)
      (mn mx : List XQ),
      rows.get? i = some r → mns.get? i = some mn → mxs.get? i = some mx →
      (applyLimits rows mns mxs).get? i =
        some ⟨r.lineName, r.model, r.component, r.parameters, mn, mx⟩ := by
  intro rows
  induction rows with
  | nil => intro mns mxs i r mn mx h; simp [List.get?] at h
  | cons r0 rs ih =>
    intro mns mxs i r mn mx h hmn hmx
    cases mns with
    | nil => simp [List.get?] at hmn
    | cons mn0 mns =>
      cases mxs with
      | nil => simp [List.get?] at hmx
      | cons mx0 mxs =>
        cases i with
        | zero =>
          simp only [List.get?] at h hmn hmx
          injection h with h
          injection hmn with hmn
          injection hmx with hmx
          subst h; subst hmn; subst hmx
          rfl
        | succ i =>
          simp only [List.get?] at h hmn hmx ⊢
          exact ih mns mxs i r mn mx h hmn hmx

theorem applyLimits_get?_inv :
    ∀ (rows : List ParameterRow) (mns mxs : List (List XQ)) (i : ℕ) (r : ParameterRow),
      (applyLimits rows mns mxs).get? i = some r →
      ∃ r0 mn mx, rows.get? i = some r0 ∧ mns.get? i = some mn ∧ mxs.get? i = some mx ∧
        r = ⟨r0.lineName, r0.model, r0.component, r0.parameters, mn, mx⟩ := by
  intro rows
  induction rows with
  | nil => intro mns mxs i r h; simp [applyLimits, List.get?] at h
  | cons r0 rs ih =>
    intro mns mxs i r h
    cases mns with
    | nil => simp [applyLimits, List.get?] at h
    | cons mn0 mns =>
      cases mxs with
      | nil => simp [applyLimits, List.get?] at h
      | cons mx0 mxs =>
        cases i with
        | zero =>
          simp only [applyLimits, List.get?] at h
          injection h with h
          exact ⟨r0, mn0, mx0, rfl, rfl, rfl, h.symm⟩
        | succ i =>
          simp only [applyLimits, List.get?] at h ⊢
          exact ih mns mxs i r h

theorem sameLineCount_applyLimits :
    ∀ (rows : List ParameterRow) (mns mxs : List (List XQ)) (name : String),
      mns.length = rows.length → mxs.length = rows.length →
      sameLineCount (applyLimits rows mns mxs) name = sameLineCount rows name := by
  intro rows
  induction rows with
  | nil => intro mns mxs name _ _; cases mns <;> cases mxs <;> rfl
  | cons r rs ih =>
    intro mns mxs name hmn hmx
    cases mns with
    | nil => simp at hmn
    | cons mn mns =>
      cases mxs with
      | nil => simp at hmx
      | cons mx mxs =>
        simp only [List.length_cons] at hmn hmx
        simp only [applyLimits, sameLineCount, List.filter]
        have hrec := ih mns mxs name (by omega) (by omega)
        simp only [sameLineCount] at hrec
        cases hd : decide (r.lineName = name) <;> simp [hrec]

set_option maxRecDepth 40000 in
/-- Claim C5 counterexample: expanding a Voigt row (parameters
[10, 8, 2, 3]) drops the fourth parameter: the inserted row's vector is
[10, 4, 2], not the full predecessor vector with the amplitude halved. -/
theorem C5_counterexample :
    ((update_components voigtTable [("Hb", ["Voigt"])]).map fun t =>
      t.rows.map (·.parameters)) = some [[10, 8, 2, 3], [10, 4, 2]] ∧
    ([10, 4, 2] : List ℚ) ≠ [10, 8 / 2, 2, 3] := by
  with_unfolding_all decide

/-- Claim C5 (amended): for an addition whose line name is present,
update_components inserts exactly one row immediately after the line's last
row, with the component index incremented, the requested model, and the
first three entries of the predecessor's parameter vector with the
amplitude (entry 1) halved — any fourth (Voigt) entry is dropped. -/
theorem C5_insertion (df : Table) (line c : String) (t : Table) (li : ℕ)
    (prev : ParameterRow)
    (hli : lastLineIdx df.rows line = some li)
    (hprev : df.rows.get? li = some prev)
    (ht : update_components df [(line, [c])] = some t) :
    t.rows.length = df.rows.length + 1 ∧
    ∃ row, t.rows.get? (li + 1) = some row ∧ row.lineName = line ∧ row.model = c ∧
      row.component = prev.component + 1 ∧
      row.parameters = [prev.parameters.getD 0 0, prev.parameters.getD 1 0 / 2,
        prev.parameters.getD 2 0] := by
  obtain ⟨rows2, mins, maxs, hw, hmm, hteq⟩ := update_components_eq df [(line, [c])] t ht
  have hpd : df.rows.getD li blankRow = prev := getD_of_get?_eq_some _ _ _ _ hprev
  have hins : insertComponent df.rows line [c] =
      some (df.rows.take (li + 1) ++
        (⟨line, c, prev.component + 1, [prev.parameters.getD 0 0,
          prev.parameters.getD 1 0 / 2, prev.parameters.getD 2 0], [], []⟩ : ParameterRow) ::
        df.rows.drop (li + 1)) := by
    simp only [insertComponent, hli, hpd]
  have hw2 : rows2 = df.rows.take (li + 1) ++
      (⟨line, c, prev.component + 1, [prev.parameters.getD 0 0,
        prev.parameters.getD 1 0 / 2, prev.parameters.getD 2 0], [], []⟩ : ParameterRow) ::
      df.rows.drop (li + 1) := by
    have hstep : withAdditions df.rows [(line, [c])] =
        match insertComponent df.rows line [c] with
        | none => none
        | some rows3 => withAdditions rows3 [] := rfl
    rw [hstep, hins] at hw
    dsimp only at hw
    have h2 : withAdditions (df.rows.take (li + 1) ++
        (⟨line, c, prev.component + 1, [prev.parameters.getD 0 0,
          prev.parameters.getD 1 0 / 2, prev.parameters.getD 2 0], [], []⟩ : ParameterRow) ::
        df.rows.drop (li + 1)) [] =
        some (df.rows.take (li + 1) ++
        (⟨line, c, prev.component + 1, [prev.parameters.getD 0 0,
          prev.parameters.getD 1 0 / 2, prev.parameters.getD 2 0], [], []⟩ : ParameterRow) ::
        df.rows.drop (li + 1)) := rfl
    rw [h2] at hw
    injection hw with hw
    exact hw.symm
  have hlt : li < df.rows.length := lt_of_get?_eq_some _ _ _ hprev
  have htake : (df.rows.take (li + 1)).length = li + 1 := by
    rw [List.length_take]; omega
  have hlen2 : rows2.length = df.rows.length + 1 := by
    rw [hw2]
    simp only [List.length_append, List.length_cons, List.length_drop, htake]
    omega
  obtain ⟨hminl, hmaxl, hget⟩ := minmaxlim_shape rows2 mins maxs hmm
  have htrows : t.rows = applyLimits rows2 mins maxs := by rw [hteq]
  have hnew : rows2.get? (li + 1) =
      some (⟨line, c, prev.component + 1, [prev.parameters.getD 0 0,
        prev.parameters.getD 1 0 / 2, prev.parameters.getD 2 0], [], []⟩ : ParameterRow) := by
    rw [hw2]
    rw [List.get?_append_right (le_of_eq htake)]
    rw [htake]
    simp [List.get?]
  have hm1 : li + 1 < mins.length := by rw [hminl, hlen2]; omega
  have hm2 : li + 1 < maxs.length := by rw [hmaxl, hlen2]; omega
  obtain ⟨mn, hmn⟩ : ∃ mn, mins.get? (li + 1) = some mn := ⟨_, List.get?_eq_get hm1⟩
  obtain ⟨mx, hmx⟩ : ∃ mx, maxs.get? (li + 1) = some mx := ⟨_, List.get?_eq_get hm2⟩
  have happ := applyLimits_get? rows2 mins maxs (li + 1) _ mn mx hnew hmn hmx
  constructor
  · rw [htrows, applyLimits_length rows2 mins maxs hminl hmaxl, hlen2]
  · exact ⟨⟨line, c, prev.component + 1, [prev.parameters.getD 0 0,
      prev.parameters.getD 1 0 / 2, prev.parameters.getD 2 0], mn, mx⟩,
      by rw [htrows]; exact happ, rfl, rfl, rfl, rfl⟩

set_option maxRecDepth 40000 in
/-- Claim C5 witness: adding a Lorentzian component for the only line of a
one-row Gaussian table inserts one new row at position 1 with component
index 2 and the halved amplitude. -/
theorem C5_witness :
    wRes5.rows.length = wTable5.rows.length + 1 ∧
    ∃ row, wRes5.rows.get? (0 + 1) = some row ∧ row.lineName = "L" ∧
      row.model = "Lorentzian" ∧
      row.component = (⟨"L", "Gaussian", 1, [10, 8, 3], [], []⟩ : ParameterRow).component + 1 ∧
      row.parameters =
        [(⟨"L", "Gaussian", 1, [10, 8, 3], [], []⟩ : ParameterRow).parameters.getD 0 0,
         (⟨"L", "Gaussian", 1, [10, 8, 3], [], []⟩ : ParameterRow).parameters.getD 1 0 / 2,
         (⟨"L", "Gaussian", 1, [10, 8, 3], [], []⟩ : ParameterRow).parameters.getD 2 0] :=
  C5_insertion wTable5 "L" "Lorentzian" wRes5 0 ⟨"L", "Gaussian", 1, [10, 8, 3], [], []⟩
    (by with_unfolding_all decide) (by with_unfolding_all decide)
    (by with_unfolding_all decide)

/-- Claim C6 counterexample: on a table whose only row carries component
index 2, the code's amplitude factor is 2 (amplitude ceiling 10 = 5 * 2),
while the claimed rule makes a sole component's factor 1. -/
theorem C6_counterexample :
    minmaxlim [soleRow] = some ([[.fin 4, .fin 0, .fin 2]], [[.fin 16, .fin 10, .fin 4.5]]) ∧
    claimAmpFactor [soleRow] soleRow = 1 ∧
    soleRow.parameters.getD 1 0 * claimAmpFactor [soleRow] soleRow = 5 ∧
    (5 : ℚ) ≠ 10 := by
  with_unfolding_all decide

/-- Claim C6 (amended): every row of an update_components result carries
the recomputed bounds: min location and max location are the centroid minus
and plus two sigma, the width bounds are 2 and 1.5 sigma (times 1.11 for
Lorentzian or the fourth Voigt entry), the amplitude ceiling is the
amplitude times the code's factor (sole-component detection applies only at
component index 1; index 2 always gets factor 2), and continuum rows get
the fixed infinite bounds. -/
theorem C6_bound_rule (df : Table) (adds : List (String × List String)) (t : Table)
    (ht : update_components df adds = some t) (i : ℕ) (r : ParameterRow)
    (hr : t.rows.get? i = some r) :
    (r.model = "Gaussian" →
      r.minLimits = [.fin (r.parameters.getD 0 0 - 2 * r.parameters.getD 2 0), .fin 0,
        .fin 2] ∧
      r.maxLimits = [.fin (r.parameters.getD 0 0 + 2 * r.parameters.getD 2 0),
        .fin (r.parameters.getD 1 0 * ampFactor t.rows r),
        .fin (1.5 * r.parameters.getD 2 0)]) ∧
    (r.model = "Lorentzian" →
      r.minLimits = [.fin (r.parameters.getD 0 0 - 2 * r.parameters.getD 2 0), .fin 0,
        .fin (1.11 * 2)] ∧
      r.maxLimits = [.fin (r.parameters.getD 0 0 + 2 * r.parameters.getD 2 0),
        .fin (r.parameters.getD 1 0 * ampFactor t.rows r),
        .fin (1.11 * (1.5 * r.parameters.getD 2 0))]) ∧
    (r.model = "Voigt" →
      r.minLimits = [.fin (r.parameters.getD 0 0 - 2 * r.parameters.getD 2 0), .fin 0,
        .fin 2, .fin (1.11 * 2)] ∧
      r.maxLimits = [.fin (r.parameters.getD 0 0 + 2 * r.parameters.getD 2 0),
        .fin (r.parameters.getD 1 0 * ampFactor t.rows r),
        .fin (1.5 * r.parameters.getD 2 0),
        .fin (1.11 * (1.5 * r.parameters.getD 2 0))]) ∧
    (r.model = "Continuum" →
      r.minLimits = [.ninf, .fin 0, .ninf] ∧ r.maxLimits = [.pinf, .pinf, .pinf]) := by
  obtain ⟨rows2, mins, maxs, hw, hmm, hteq⟩ := update_components_eq df adds t ht
  obtain ⟨hminl, hmaxl, hget⟩ := minmaxlim_shape rows2 mins maxs hmm
  have htrows : t.rows = applyLimits rows2 mins maxs := by rw [hteq]
  rw [htrows] at hr
  obtain ⟨r0, mn, mx, hr0, hmn, hmx, req⟩ := applyLimits_get?_inv rows2 mins maxs i r hr
  have hf1 : r.lineName = r0.lineName := by rw [req]
  have hf2 : r.model = r0.model := by rw [req]
  have hf3 : r.component = r0.component := by rw [req]
  have hf4 : r.parameters = r0.parameters := by rw [req]
  have hf5 : r.minLimits = mn := by rw [req]
  have hf6 : r.maxLimits = mx := by rw [req]
  have hamp : ampFactor t.rows r = ampFactor rows2 r0 := by
    unfold ampFactor
    rw [hf3, hf1, htrows, sameLineCount_applyLimits rows2 mins maxs r0.lineName hminl hmaxl]
  refine ⟨?_, ?_, ?_, ?_⟩
  · intro hmodel
    have hm0 : r0.model = "Gaussian" := by rw [← hf2]; exact hmodel
    have hbf : boundsFor rows2 r0 = some
        ([.fin (r0.parameters.getD 0 0 - 2 * r0.parameters.getD 2 0), .fin 0, .fin 2],
         [.fin (r0.parameters.getD 0 0 + 2 * r0.parameters.getD 2 0),
          .fin (r0.parameters.getD 1 0 * ampFactor rows2 r0),
          .fin (1.5 * r0.parameters.getD 2 0)]) := by
      simp [boundsFor, hm0]
    obtain ⟨hgmn, hgmx⟩ := hget i r0 _ hr0 hbf
    rw [hmn] at hgmn
    rw [hmx] at hgmx
    injection hgmn with hgmn
    injection hgmx with hgmx
    dsimp only at hgmn hgmx
    constructor
    · rw [hf5, hf4]; exact hgmn
    · rw [hf6, hf4, hamp]; exact hgmx
  · intro hmodel
    have hm0 : r0.model = "Lorentzian" := by rw [← hf2]; exact hmodel
    have hne : ¬ r0.model = "Gaussian" := by rw [hm0]; decide
    have hbf : boundsFor rows2 r0 = some
        ([.fin (r0.parameters.getD 0 0 - 2 * r0.parameters.getD 2 0), .fin 0,
          .fin (1.11 * 2)],
         [.fin (r0.parameters.getD 0 0 + 2 * r0.parameters.getD 2 0),
          .fin (r0.parameters.getD 1 0 * ampFactor rows2 r0),
          .fin (1.11 * (1.5 * r0.parameters.getD 2 0))]) := by
      simp [boundsFor, hm0, hne]
    obtain ⟨hgmn, hgmx⟩ := hget i r0 _ hr0 hbf
    rw [hmn] at hgmn
    rw [hmx] at hgmx
    injection hgmn with hgmn
    injection hgmx with hgmx
    dsimp only at hgmn hgmx
    constructor
    · rw [hf5, hf4]; exact hgmn
    · rw [hf6, hf4, hamp]; exact hgmx
  · intro hmodel
    have hm0 : r0.model = "Voigt" := by rw [← hf2]; exact hmodel
    have hne1 : ¬ r0.model = "Gaussian" := by rw [hm0]; decide
    have hne2 : ¬ r0.model = "Lorentzian" := by rw [hm0]; decide
    have hbf : boundsFor rows2 r0 = some
        ([.fin (r0.parameters.getD 0 0 - 2 * r0.parameters.getD 2 0), .fin 0, .fin 2,
          .fin (1.11 * 2)],
         [.fin (r0.parameters.getD 0 0 + 2 * r0.parameters.getD 2 0),
          .fin (r0.parameters.getD 1 0 * ampFactor rows2 r0),
          .fin (1.5 * r0.parameters.getD 2 0),
          .fin (1.11 * (1.5 * r0.parameters.getD 2 0))]) := by
      simp [boundsFor, hm0, hne1, hne2]
    obtain ⟨hgmn, hgmx⟩ := hget i r0 _ hr0 hbf
    rw [hmn] at hgmn
    rw [hmx] at hgmx
    injection hgmn with hgmn
    injection hgmx with hgmx
    dsimp only at hgmn hgmx
    constructor
    · rw [hf5, hf4]; exact hgmn
    · rw [hf6, hf4, hamp]; exact hgmx
  · intro hmodel
    have hm0 : r0.model = "Continuum" := by rw [← hf2]; exact hmodel
    have hne1 : ¬ r0.model = "Gaussian" := by rw [hm0]; decide
    have hne2 : ¬ r0.model = "Lorentzian" := by rw [hm0]; decide
    have hne3 : ¬ r0.model = "Voigt" := by rw [hm0]; decide
    have hbf : boundsFor rows2 r0 = some
        ([.ninf, .fin 0, .ninf], [.pinf, .pinf, .pinf]) := by
      simp [boundsFor, hm0, hne1, hne2, hne3]
    obtain ⟨hgmn, hgmx⟩ := hget i r0 _ hr0 hbf
    rw [hmn] at hgmn
    rw [hmx] at hgmx
    injection hgmn with hgmn
    injection hgmx with hgmx
    dsimp only at hgmn hgmx
    exact ⟨by rw [hf5]; exact hgmn, by rw [hf6]; exact hgmx⟩

set_option maxRecDepth 40000 in
/-- Claim C6 witness: recomputation over a one-row Gaussian table satisfies
the amended rule at its only row. -/
theorem C6_witness :
    (wRow6.model = "Gaussian" →
      wRow6.minLimits = [.fin (wRow6.parameters.getD 0 0 - 2 * wRow6.parameters.getD 2 0),
        .fin 0, .fin 2] ∧
      wRow6.maxLimits = [.fin (wRow6.parameters.getD 0 0 + 2 * wRow6.parameters.getD 2 0),
        .fin (wRow6.parameters.getD 1 0 * ampFactor wRes6.rows wRow6),
        .fin (1.5 * wRow6.parameters.getD 2 0)]) ∧
    (wRow6.model = "Lorentzian" →
      wRow6.minLimits = [.fin (wRow6.parameters.getD 0 0 - 2 * wRow6.parameters.getD 2 0),
        .fin 0, .fin (1.11 * 2)] ∧
      wRow6.maxLimits = [.fin (wRow6.parameters.getD 0 0 + 2 * wRow6.parameters.getD 2 0),
        .fin (wRow6.parameters.getD 1 0 * ampFactor wRes6.rows wRow6),
        .fin (1.11 * (1.5 * wRow6.parameters.getD 2 0))]) ∧
    (wRow6.model = "Voigt" →
      wRow6.minLimits = [.fin (wRow6.parameters.getD 0 0 - 2 * wRow6.parameters.getD 2 0),
        .fin 0, .fin 2, .fin (1.11 * 2)] ∧
      wRow6.maxLimits = [.fin (wRow6.parameters.getD 0 0 + 2 * wRow6.parameters.getD 2 0),
        .fin (wRow6.parameters.getD 1 0 * ampFactor wRes6.rows wRow6),
        .fin (1.5 * wRow6.parameters.getD 2 0),
        .fin (1.11 * (1.5 * wRow6.parameters.getD 2 0))]) ∧
    (wRow6.model = "Continuum" →
      wRow6.minLimits = [.ninf, .fin 0, .ninf] ∧
      wRow6.maxLimits = [.pinf, .pinf, .pinf]) :=
  C6_bound_rule wTable5 [] wRes6 (by with_unfolding_all decide) 0 wRow6
    (by with_unfolding_all decide)

/-- Claim C9 counterexample: a table whose first row has an unknown model
makes minmaxlim fail outright (the uninitialized locals of the source raise
NameError), producing bounds for no row at all — not even the well-formed
Gaussian row that follows. -/
theorem C9_counterexample : minmaxlim [fooRow, gRow9] = none := by
  with_unfolding_all decide

/-- Claim C9 (amended): an unknown model aborts the whole call when it
appears before any successfully processed row; otherwise the unknown-model
row is not skipped but receives a duplicate of the previously computed
bounds, and the function returns one bound pair per row whenever the first
row's model is known. -/
theorem C9_unknown_model :
    (∀ (r : ParameterRow) (rs : List ParameterRow), boundsFor (r :: rs) r = none →
      minmaxlim (r :: rs) = none) ∧
    (∀ (r1 r2 : ParameterRow) (p : List XQ × List XQ), boundsFor [r1, r2] r1 = some p →
      boundsFor [r1, r2] r2 = none →
      minmaxlim [r1, r2] = some ([p.1, p.1], [p.2, p.2])) ∧
    (∀ (r : ParameterRow) (rs : List ParameterRow) (p : List XQ × List XQ),
      boundsFor (r :: rs) r = some p →
      ∃ mins maxs, minmaxlim (r :: rs) = some (mins, maxs) ∧
        mins.length = rs.length + 1 ∧ maxs.length = rs.length + 1) := by
  refine ⟨?_, ?_, ?_⟩
  · intro r rs h
    simp [minmaxlim, minmaxGo, h]
  · intro r1 r2 p h1 h2
    simp [minmaxlim, minmaxGo, h1, h2]
  · intro r rs p h
    obtain ⟨mins, maxs, hrun, h1, h2⟩ := minmaxGo_isSome (r :: rs) rs p [p.1] [p.2]
    refine ⟨mins, maxs, ?_, by simp at h1; omega, by simp at h2; omega⟩
    have hstep : minmaxGo (r :: rs) (r :: rs) none [] [] =
        minmaxGo (r :: rs) rs (some p) [p.1] [p.2] := by
      simp [minmaxGo, h]
    rw [minmaxlim, hstep]
    exact hrun

/-- Claim C9 witness: a known-model row followed by an unknown-model row
yields bounds for both rows, the second a duplicate of the first. -/
theorem C9_witness :
    minmaxlim [gRow9, fooRow] =
      some ([([.fin 4, .fin 0, .fin 2] : List XQ), [.fin 4, .fin 0, .fin 2]],
            [([.fin 16, .fin 8, .fin 4.5] : List XQ), [.fin 16, .fin 8, .fin 4.5]]) :=
  C9_unknown_model.2.1 gRow9 fooRow
    ([.fin 4, .fin 0, .fin 2], [.fin 16, .fin 8, .fin 4.5])
    (by with_unfolding_all decide) (by with_unfolding_all decide)

/-- Claim C1 (code-bug evaluation): a filtered line whose derived sigma is
1 (below the fixed lower width bound 2.0) makes initial_dataframe emit a
row whose parameter vector lies outside its own bounds — the sigma entry 1
sits below the min bound 2 — and minmaxlim recomputes the same violating
bounds, so the elementwise invariant is false on the produced row. -/
theorem C1_bug_eval :
    initial_dataframe lowCat [lowLine] none =
      some ⟨stdCols, [⟨"L", "Gaussian", 1, [10, 100, 1],
        [.fin 8, .fin 0, .fin 2], [.fin 12, .fin 100, .fin 1.5]⟩]⟩ ∧
    rowInvariant ⟨"L", "Gaussian", 1, [10, 100, 1],
      [.fin 8, .fin 0, .fin 2], [.fin 12, .fin 100, .fin 1.5]⟩ = false ∧
    minmaxlim [⟨"L", "Gaussian", 1, [10, 100, 1], [], []⟩] =
      some ([[.fin 8, .fin 0, .fin 2]], [[.fin 12, .fin 100, .fin 1.5]]) ∧
    boundsOK [10, 100, 1] [.fin 8, .fin 0, .fin 2] [.fin 12, .fin 100, .fin 1.5] = false := by
  with_unfolding_all decide

end Spelfig
